import Mathlib

/-!
Verification of the provisioning orchestrator in `src/main.go` of
`jbpratt/stk-memes`.

The program is a single linear `main` function: read a config file, read the
SSH public key, build an OVH compute driver, create a node, sleep for a fixed
minute, read and parse the SSH private key, dial the node's first IPv4 address
on port 22, open a session, acquire the stdin/stderr/stdout pipes, spawn two
background relay copiers, start a shell, write each command (tokens joined by
a space, newline-terminated) to stdin, and wait for the session to end.  Every
error goes through `log.Fatalln`, which calls `os.Exit(1)` and therefore skips
deferred calls such as `defer session.Close()`.

We embed the run as a function from an oracle of step outcomes (`Env`) to a
trace of observable events plus an exit kind, mirroring `main` statement by
statement, including the Go semantics that `log.Fatalln` skips defers and that
indexing an empty slice panics.
-/

namespace StkMemes

/-- Modelled from the spec: the node's reported network addresses
(`n.Networks.V4` in `internal/node`, which is not under `src/`); the spec says
a node carries a set of network addresses, at least one IPv4 address of which
is used for connection.  `main.go` accesses it as a slice of printable
addresses (`n.Networks.V4[0]` formatted with `%s`), so we model it as a list
of strings. -/
structure Networks where
  v4 : List String
deriving Repr, DecidableEq

/-- Modelled from the spec: a created compute node, the result of
`driver.Create` (`internal/node`, not under `src/`): an opaque value whose
only field consumed by `main.go` is `Networks.V4`. -/
structure Nd where
  networks : Networks
deriving Repr, DecidableEq

/-- Observable events of a run of `main`, in program order. -/
inductive Event where
  /-- The node-creation request is sent to the provider (line 76). -/
  | create
  /-- `driver.Create` returned without error. -/
  | createOk
  /-- The fixed readiness delay `time.Sleep(1 * time.Minute)` (line 84). -/
  | sleep
  /-- `ssh.Dial("tcp", target, conf)` is attempted with the given target
  string (line 105). -/
  | dial (target : String)
  /-- `conn.NewSession()` returned a session without error (line 110). -/
  | newSession
  /-- The stderr relay goroutine is spawned (line 135). -/
  | spawnStderrRelay
  /-- The stdout relay goroutine is spawned (line 136). -/
  | spawnStdoutRelay
  /-- A relay `io.Copy` failure is logged (line 131); `true` tags the stderr
  relay, `false` the stdout relay. -/
  | relayErrLogged (isStderr : Bool)
  /-- `session.Shell()` returned without error (line 182). -/
  | shellStart
  /-- The given bytes were written to the session input stream (line 190). -/
  | write (bytes : String)
  /-- `session.Wait()` is entered (line 196). -/
  | waitBegin
  /-- `session.Close()` runs (the deferred call of line 114). -/
  | closeSession
deriving Repr, DecidableEq

/-- How the process terminates: `normal` is exit status 0, `fatal` is the
non-zero exit of `log.Fatalln` (`os.Exit(1)`, skipping defers), `crashed` is
a Go runtime panic (index out of range). -/
inductive ExitKind where
  | normal
  | fatal
  | crashed
deriving Repr, DecidableEq

/-- The outcome of a run: the ordered trace of events and the exit kind. -/
structure RunResult where
  events : List Event
  exit : ExitKind
deriving Repr, DecidableEq

/-- Oracle fixing the outcome of every fallible or external step of `main`.
A `true`/`some` value means the corresponding call returns without error. -/
structure Env where
  /-- `os.Open(*cfgPath)` succeeds (line 33). -/
  openCfg : Bool
  /-- `ioutil.ReadAll(file)` succeeds (line 38). -/
  readCfg : Bool
  /-- `json.Unmarshal` succeeds (line 44). -/
  unmarshalCfg : Bool
  /-- `ioutil.ReadFile(config.IdentityFile + ".pub")` succeeds (line 48). -/
  readPub : Bool
  /-- `node.NewOVHDriver(...)` succeeds (line 54). -/
  newDriver : Bool
  /-- Outcome of `driver.Create(ctx, req)` (line 76): the node, or `none`
  for an error. -/
  create : Option Nd
  /-- `ioutil.ReadFile(config.IdentityFile)` succeeds (line 86). -/
  readPriv : Bool
  /-- `ssh.ParsePrivateKey(privkey)` succeeds (line 91). -/
  parseKey : Bool
  /-- `ssh.Dial` succeeds (line 105). -/
  dialOk : Bool
  /-- `conn.NewSession()` succeeds (line 110). -/
  sessionOk : Bool
  /-- `session.StdinPipe()` succeeds (line 116). -/
  stdinPipe : Bool
  /-- `session.StderrPipe()` succeeds (line 120). -/
  stderrPipe : Bool
  /-- `session.StdoutPipe()` succeeds (line 124). -/
  stdoutPipe : Bool
  /-- The stderr relay's `io.Copy` eventually fails (line 135). -/
  stderrCopyErr : Bool
  /-- The stdout relay's `io.Copy` eventually fails (line 136). -/
  stdoutCopyErr : Bool
  /-- `session.Shell()` succeeds (line 182). -/
  shellOk : Bool
  /-- Whether the `fmt.Fprintf(stdin, ...)` for the i-th command succeeds
  (line 190). -/
  writeOk : Nat → Bool
  /-- `session.Wait()` returns `nil` (line 196). -/
  waitOk : Bool

/-- The line transmitted for one command: tokens joined by single spaces
(`strings.Join(cmd, " ")`, line 188) followed by the newline added by
`fmt.Fprintf(stdin, "%s\n", cmdstr)` (line 190). -/
def line (c : List String) : String :=
  String.intercalate " " c ++ "\n"

/-- The full intended input-stream payload for a command list. -/
def transcript (cmds : List (List String)) : String :=
  String.join (cmds.map line)

/-- How many leading commands get written before the first failing
`fmt.Fprintf`, starting at index `k` of the write oracle. -/
def okCount (w : Nat → Bool) : Nat → List (List String) → Nat
  | _, [] => 0
  | k, _ :: cs => if w k then okCount w (k + 1) cs + 1 else 0

/-- The command loop of lines 187-194: write each command's line to stdin in
order; on the first failing write, stop (the program exits fatally).  Returns
the write events produced and whether all writes succeeded. -/
def sendCmds (w : Nat → Bool) : Nat → List (List String) → List Event × Bool
  | _, [] => ([], true)
  | k, c :: cs =>
    if w k then
      let r := sendCmds w (k + 1) cs
      (Event.write (line c) :: r.1, r.2)
    else ([], false)

/-- The events of spawning the two relay goroutines (lines 135-136); a relay
whose copy fails logs the error (line 131) but nothing else. -/
def relayEvs (e : Env) : List Event :=
  [Event.spawnStderrRelay]
    ++ (if e.stderrCopyErr then [Event.relayErrLogged true] else [])
    ++ [Event.spawnStdoutRelay]
    ++ (if e.stdoutCopyErr then [Event.relayErrLogged false] else [])

/-- The events accumulated when the run reaches line 86 (after the create
request succeeded and the readiness sleep elapsed). -/
def preEvs : List Event :=
  [.create, .createOk, .sleep]

/-- The events accumulated once dial, session and all three pipes succeeded
and the two relay goroutines are spawned, for dial target `t`. -/
def connEvs (e : Env) (t : String) : List Event :=
  preEvs ++ [.dial t, .newSession] ++ relayEvs e

/-- Lines 105-198 of `main`: dial the target, open a session, acquire the
three pipes, spawn the relays, start the shell, write the commands, wait.
Every error branch is the `log.Fatalln` exit (non-zero status, skipping the
deferred `session.Close()` of line 114); `closeSession` happens only when
`main` returns normally. -/
def runFromDial (cmds : List (List String)) (e : Env) (t : String) : RunResult :=
  if !e.dialOk then ⟨preEvs ++ [.dial t], .fatal⟩
  else if !e.sessionOk then ⟨preEvs ++ [.dial t], .fatal⟩
  else if !e.stdinPipe then ⟨preEvs ++ [.dial t, .newSession], .fatal⟩
  else if !e.stderrPipe then ⟨preEvs ++ [.dial t, .newSession], .fatal⟩
  else if !e.stdoutPipe then ⟨preEvs ++ [.dial t, .newSession], .fatal⟩
  else if !e.shellOk then ⟨connEvs e t, .fatal⟩
  else if !(sendCmds e.writeOk 0 cmds).2 then
    ⟨connEvs e t ++ [.shellStart] ++ (sendCmds e.writeOk 0 cmds).1, .fatal⟩
  else if !e.waitOk then
    ⟨connEvs e t ++ [.shellStart] ++ (sendCmds e.writeOk 0 cmds).1
      ++ [.waitBegin], .fatal⟩
  else
    ⟨connEvs e t ++ [.shellStart] ++ (sendCmds e.writeOk 0 cmds).1
      ++ [.waitBegin, .closeSession], .normal⟩

/-- The run of `main` on command list `cmds` under outcome oracle `e`,
mirroring `src/main.go` statement by statement.  Every error branch is the
`log.Fatalln` exit (non-zero status, deferred calls skipped); building the
dial target from an empty `V4` slice is the Go index-out-of-range panic of
`n.Networks.V4[0]` (line 105); the dial target is the first IPv4 address with
`":22"` appended (`fmt.Sprintf`). -/
def run (cmds : List (List String)) (e : Env) : RunResult :=
  if !e.openCfg then ⟨[], .fatal⟩
  else if !e.readCfg then ⟨[], .fatal⟩
  else if !e.unmarshalCfg then ⟨[], .fatal⟩
  else if !e.readPub then ⟨[], .fatal⟩
  else if !e.newDriver then ⟨[], .fatal⟩
  else
    match e.create with
    | none => ⟨[.create], .fatal⟩
    | some n =>
      if !e.readPriv then ⟨preEvs, .fatal⟩
      else if !e.parseKey then ⟨preEvs, .fatal⟩
      else
        match n.networks.v4 with
        | [] => ⟨preEvs, .crashed⟩
        | addr :: _ => runFromDial cmds e (addr ++ ":22")

/-- Recognizer for input-stream write events. -/
def isWrite : Event → Bool
  | .write _ => true
  | _ => false

/-- The payloads of the input-stream writes of a trace, in order. -/
def writesOf : List Event → List String
  | [] => []
  | .write s :: es => s :: writesOf es
  | _ :: es => writesOf es

/-- The bytes written to the session input stream during a trace, in order. -/
def writtenOf (es : List Event) : String :=
  String.join (writesOf es)

/-- Recognizer for the relay-error log events. -/
def isRelayLog : Event → Bool
  | .relayErrLogged _ => true
  | _ => false

/-- The trace with the relay-error log events erased: everything the primary
thread of control does. -/
def mainEvents (es : List Event) : List Event :=
  es.filter (fun ev => !isRelayLog ev)

/-- The local (pre-remote) phase of lines 33-63 succeeds: config open, read,
unmarshal, public-key read, driver construction. -/
def preOk (e : Env) : Prop :=
  e.openCfg = true ∧ e.readCfg = true ∧ e.unmarshalCfg = true
    ∧ e.readPub = true ∧ e.newDriver = true

instance (e : Env) : Decidable (preOk e) := by
  unfold preOk
  infer_instance

/-- The hardcoded provisioning command list of lines 140-180, parameterized
by the injected STK username and password. -/
def codeCmds (stkUsername stkPassword : String) : List (List String) :=
  [ ["sudo", "apt-get", "-y", "update"],
    ["sudo", "apt-get", "-y", "upgrade"],
    [ "sudo", "apt-get", "-y", "install",
      "build-essential",
      "subversion",
      "cmake",
      "libbluetooth-dev",
      "libsdl2-dev",
      "libcurl4-openssl-dev",
      "libenet-dev",
      "libfreetype6-dev",
      "libharfbuzz-dev",
      "libjpeg-dev",
      "libogg-dev",
      "libopenal-dev",
      "libpng-dev",
      "libssl-dev",
      "libvorbis-dev",
      "nettle-dev",
      "pkg-config",
      "zlib1g-dev" ],
    ["mkdir", "stk"],
    ["cd", "stk"],
    ["git", "clone", "https://github.com/supertuxkart/stk-code", "stk-code"],
    ["svn", "co", "https://svn.code.sf.net/p/supertuxkart/code/stk-assets", "stk-assets"],
    ["cd", "stk-code"],
    ["mkdir", "cmake_build"],
    ["cd", "cmake_build"],
    ["cmake", "..", "-DSERVER_ONLY=ON"],
    ["sudo", "make", "install"],
    ["supertuxkart", "--init-user", "--login=" ++ stkUsername, "--password=" ++ stkPassword],
    [ "wget",
      "https://gist.githubusercontent.com/jbpratt/e31529a43e274cb5b1af3234169a98c4/raw/bc9cb9d743be44b748aeaf0cf89ed915751669d1/stk-conf",
      "-O", "$HOME/.config/supertuxkart/config-0.10/server_config.xml" ],
    ["sudo", "ufw", "allow", "2759"] ]

/-- An oracle on which every step succeeds and the node reports one IPv4
address. -/
def allOkEnv : Env where
  openCfg := true
  readCfg := true
  unmarshalCfg := true
  readPub := true
  newDriver := true
  create := some ⟨⟨["203.0.113.7"]⟩⟩
  readPriv := true
  parseKey := true
  dialOk := true
  sessionOk := true
  stdinPipe := true
  stderrPipe := true
  stdoutPipe := true
  stderrCopyErr := false
  stdoutCopyErr := false
  shellOk := true
  writeOk := fun _ => true
  waitOk := true

/-- The spec's example command list: `[["echo","hi"]]`. -/
def cmds0 : List (List String) := [["echo", "hi"]]

/-- A two-command list used to exercise a failing write in the middle. -/
def cmds1 : List (List String) := [["echo", "hi"], ["echo", "bye"]]

/-- All steps succeed but both relay copies fail. -/
def envRelayFail : Env :=
  { allOkEnv with stderrCopyErr := true, stdoutCopyErr := true }

/-- All steps succeed except `driver.Create`. -/
def envCreateFail : Env := { allOkEnv with create := none }

/-- All steps succeed except `session.StdinPipe()` (a failure after session
creation but before the shell is started). -/
def envStdinFail : Env := { allOkEnv with stdinPipe := false }

/-- All steps succeed except reading the private key file. -/
def envPrivFail : Env := { allOkEnv with readPriv := false }

/-- All steps succeed but the node reports an empty IPv4 address list. -/
def envNoAddr : Env := { allOkEnv with create := some ⟨⟨[]⟩⟩ }

/-- All steps succeed except the write of the command at index 1. -/
def envWrite1Fail : Env := { allOkEnv with writeOk := fun i => decide (i < 1) }

/-- Ordering discipline of a trace: a shell start never follows a write, and
no write follows the entry into the termination wait.  `List.Pairwise
orderRel` over a trace says every write happens after the shell is requested
and before the wait begins. -/
def orderRel (a b : Event) : Prop :=
  (isWrite a = true → b ≠ Event.shellStart)
    ∧ (a = Event.waitBegin → isWrite b = false)

/-- The same oracle with the two relay copy outcomes replaced: used to state
that relay failures do not influence the rest of the run. -/
def setRelayFlags (e : Env) (r1 r2 : Bool) : Env :=
  { e with stderrCopyErr := r1, stdoutCopyErr := r2 }

section Lemmas

variable (w : Nat → Bool)

theorem okCount_le : ∀ (k : Nat) (cs : List (List String)),
    okCount w k cs ≤ cs.length := by
  intro k cs
  induction cs generalizing k with
  | nil => simp [okCount]
  | cons c cs ih =>
    cases h : w k
    · simp [okCount, h]
    · simpa [okCount, h, Nat.succ_le_succ_iff] using ih (k + 1)

theorem sendCmds_fst : ∀ (k : Nat) (cs : List (List String)),
    (sendCmds w k cs).1
      = (cs.take (okCount w k cs)).map (fun c => Event.write (line c)) := by
  intro k cs
  induction cs generalizing k with
  | nil => simp [sendCmds, okCount]
  | cons c cs ih =>
    cases h : w k
    · simp [sendCmds, okCount, h]
    · simp [sendCmds, okCount, h, ih (k + 1)]

theorem sendCmds_snd : ∀ (k : Nat) (cs : List (List String)),
    (sendCmds w k cs).2 = true ↔ okCount w k cs = cs.length := by
  intro k cs
  induction cs generalizing k with
  | nil => simp [sendCmds, okCount]
  | cons c cs ih =>
    cases h : w k
    · simp [sendCmds, okCount, h]
    · simp [sendCmds, okCount, h, ih (k + 1)]

theorem okCount_of_all : ∀ (k : Nat) (cs : List (List String)),
    (∀ j, j < cs.length → w (k + j) = true) → okCount w k cs = cs.length := by
  intro k cs
  induction cs generalizing k with
  | nil => simp [okCount]
  | cons c cs ih =>
    intro h
    have h0 : w k = true := by simpa using h 0 (by simp)
    have hrest : okCount w (k + 1) cs = cs.length := by
      apply ih
      intro j hj
      have e : (k + 1) + j = k + (j + 1) := by omega
      rw [e]
      exact h (j + 1) (by simpa using Nat.succ_lt_succ hj)
    simp [okCount, h0, hrest]

theorem okCount_of_fail : ∀ (k m : Nat) (cs : List (List String)),
    (∀ j, j < m → w (k + j) = true) → w (k + m) = false → m ≤ cs.length →
    okCount w k cs = m := by
  intro k m cs
  induction cs generalizing k m with
  | nil =>
    intro _ _ hm
    have : m = 0 := by simpa using hm
    simp [okCount, this]
  | cons c cs ih =>
    intro hall hf hm
    cases m with
    | zero =>
      have h0 : w k = false := by simpa using hf
      simp [okCount, h0]
    | succ m =>
      have h0 : w k = true := by simpa using hall 0 (by omega)
      have hrest : okCount w (k + 1) cs = m := by
        apply ih
        · intro j hj
          have e : (k + 1) + j = k + (j + 1) := by omega
          rw [e]
          exact hall (j + 1) (by omega)
        · have e : (k + 1) + m = k + (m + 1) := by omega
          rw [e]
          exact hf
        · simpa [Nat.succ_le_succ_iff] using hm
      simp [okCount, h0, hrest]

theorem writesOf_append : ∀ (a b : List Event),
    writesOf (a ++ b) = writesOf a ++ writesOf b := by
  intro a b
  induction a with
  | nil => simp [writesOf]
  | cons ev a ih => cases ev <;> simp [writesOf, ih]

theorem writesOf_map_write (cs : List (List String)) :
    writesOf (cs.map fun c => Event.write (line c)) = cs.map line := by
  induction cs with
  | nil => simp [writesOf]
  | cons c cs ih => simp [writesOf, ih]

theorem mem_relayEvs_iff (e : Env) (ev : Event) :
    ev ∈ relayEvs e ↔
      (ev = .spawnStderrRelay ∨ ev = .spawnStdoutRelay
        ∨ (e.stderrCopyErr = true ∧ ev = .relayErrLogged true)
        ∨ (e.stdoutCopyErr = true ∧ ev = .relayErrLogged false)) := by
  unfold relayEvs
  cases h1 : e.stderrCopyErr <;> cases h2 : e.stdoutCopyErr <;> simp <;> tauto

theorem writesOf_relayEvs (e : Env) : writesOf (relayEvs e) = [] := by
  unfold relayEvs
  cases h1 : e.stderrCopyErr <;> cases h2 : e.stdoutCopyErr <;> simp [writesOf]

theorem mem_sendCmds_fst {w : Nat → Bool} {k : Nat}
    {cs : List (List String)} {ev : Event}
    (h : ev ∈ (sendCmds w k cs).1) : ∃ c ∈ cs, ev = Event.write (line c) := by
  rw [sendCmds_fst] at h
  obtain ⟨c, hmem, rfl⟩ := List.mem_map.mp h
  exact ⟨c, List.take_subset _ _ hmem, rfl⟩

theorem dial_not_mem_sendCmds (w : Nat → Bool) (k : Nat)
    (cs : List (List String)) (t : String) :
    Event.dial t ∉ (sendCmds w k cs).1 := by
  intro h
  obtain ⟨c, _, hc⟩ := mem_sendCmds_fst h
  simp at hc

theorem waitBegin_not_mem_sendCmds (w : Nat → Bool) (k : Nat)
    (cs : List (List String)) :
    Event.waitBegin ∉ (sendCmds w k cs).1 := by
  intro h
  obtain ⟨c, _, hc⟩ := mem_sendCmds_fst h
  simp at hc

theorem shellStart_not_mem_sendCmds (w : Nat → Bool) (k : Nat)
    (cs : List (List String)) :
    Event.shellStart ∉ (sendCmds w k cs).1 := by
  intro h
  obtain ⟨c, _, hc⟩ := mem_sendCmds_fst h
  simp at hc

theorem newSession_not_mem_sendCmds (w : Nat → Bool) (k : Nat)
    (cs : List (List String)) :
    Event.newSession ∉ (sendCmds w k cs).1 := by
  intro h
  obtain ⟨c, _, hc⟩ := mem_sendCmds_fst h
  simp at hc

theorem closeSession_not_mem_sendCmds (w : Nat → Bool) (k : Nat)
    (cs : List (List String)) :
    Event.closeSession ∉ (sendCmds w k cs).1 := by
  intro h
  obtain ⟨c, _, hc⟩ := mem_sendCmds_fst h
  simp at hc

theorem writesOf_connEvs (e : Env) (t : String) :
    writesOf (connEvs e t) = [] := by
  unfold connEvs preEvs
  rw [writesOf_append, writesOf_append, writesOf_relayEvs]
  rfl

theorem mainEvents_append (a b : List Event) :
    mainEvents (a ++ b) = mainEvents a ++ mainEvents b := by
  simp [mainEvents]

theorem mainEvents_relayEvs (e : Env) :
    mainEvents (relayEvs e) = [.spawnStderrRelay, .spawnStdoutRelay] := by
  unfold relayEvs mainEvents
  cases h1 : e.stderrCopyErr <;> cases h2 : e.stdoutCopyErr <;>
    simp [isRelayLog]

theorem mainEvents_nil : mainEvents [] = [] := by
  simp [mainEvents]

theorem mainEvents_cons_other (a : Event) (es : List Event)
    (h : isRelayLog a = false) :
    mainEvents (a :: es) = a :: mainEvents es := by
  simp [mainEvents, h]

theorem mainEvents_sendCmds (w : Nat → Bool) (k : Nat)
    (cs : List (List String)) :
    mainEvents (sendCmds w k cs).1 = (sendCmds w k cs).1 := by
  rw [sendCmds_fst, mainEvents]
  apply List.filter_eq_self.mpr
  intro a ha
  obtain ⟨c, _, rfl⟩ := List.mem_map.mp ha
  simp [isRelayLog]

theorem mainEvents_connEvs (e : Env) (t : String) :
    mainEvents (connEvs e t)
      = [.create, .createOk, .sleep, .dial t, .newSession,
          .spawnStderrRelay, .spawnStdoutRelay] := by
  unfold connEvs preEvs
  rw [mainEvents_append, mainEvents_append, mainEvents_relayEvs]
  simp [mainEvents, isRelayLog]

theorem waitBegin_not_mem_connEvs (e : Env) (t : String) :
    Event.waitBegin ∉ connEvs e t := by
  simp [connEvs, preEvs, mem_relayEvs_iff]

theorem relayLog_mem_connEvs_stderr (e : Env) (t : String)
    (h : e.stderrCopyErr = true) :
    Event.relayErrLogged true ∈ connEvs e t := by
  simp [connEvs, preEvs, mem_relayEvs_iff, h]

theorem relayLog_mem_connEvs_stdout (e : Env) (t : String)
    (h : e.stdoutCopyErr = true) :
    Event.relayErrLogged false ∈ connEvs e t := by
  simp [connEvs, preEvs, mem_relayEvs_iff, h]

theorem orderRel_of_left (a : Event) (h1 : isWrite a = false)
    (h2 : a ≠ Event.waitBegin) (b : Event) : orderRel a b :=
  ⟨fun hw => absurd hw (by simp [h1]), fun hww => absurd hww h2⟩

theorem pairwise_orderRel_of_benign (l : List Event)
    (h : ∀ a ∈ l, isWrite a = false ∧ a ≠ Event.waitBegin) :
    l.Pairwise orderRel := by
  induction l with
  | nil => exact List.Pairwise.nil
  | cons a l ih =>
    refine List.Pairwise.cons ?_ (ih ?_)
    · intro b _
      exact orderRel_of_left a (h a (by simp)).1 (h a (by simp)).2 b
    · intro x hx
      exact h x (by simp [hx])

theorem pairwise_orderRel_of_writes (l : List Event)
    (h : ∀ a ∈ l, isWrite a = true) :
    l.Pairwise orderRel := by
  induction l with
  | nil => exact List.Pairwise.nil
  | cons a l ih =>
    refine List.Pairwise.cons ?_ (ih ?_)
    · intro b hb
      refine ⟨fun _ => ?_, fun ha => ?_⟩
      · intro hbs
        have := h b (by simp [hb])
        rw [hbs] at this
        simp [isWrite] at this
      · have := h a (by simp)
        rw [ha] at this
        simp [isWrite] at this
    · intro x hx
      exact h x (by simp [hx])

theorem connEvs_benign (e : Env) (t : String) :
    ∀ a ∈ connEvs e t, isWrite a = false ∧ a ≠ Event.waitBegin := by
  intro a ha
  simp [connEvs, preEvs, mem_relayEvs_iff] at ha
  rcases ha with rfl | rfl | rfl | rfl | rfl | rfl | rfl | ⟨_, rfl⟩ | ⟨_, rfl⟩ <;>
    simp [isWrite]

theorem pairwise_orderRel_events (e : Env) (t : String) (w : Nat → Bool)
    (cs : List (List String)) (T : List Event)
    (hT : T.Pairwise orderRel)
    (hTb : ∀ b ∈ T, b ≠ Event.shellStart) :
    (connEvs e t ++ [Event.shellStart] ++ (sendCmds w 0 cs).1 ++ T).Pairwise
      orderRel := by
  rw [List.pairwise_append]
  refine ⟨?_, hT, ?_⟩
  · rw [List.pairwise_append]
    refine ⟨?_, ?_, ?_⟩
    · apply pairwise_orderRel_of_benign
      intro a ha
      rcases List.mem_append.mp ha with ha | ha
      · exact connEvs_benign e t a ha
      · simp at ha
        subst ha
        exact ⟨rfl, by simp⟩
    · apply pairwise_orderRel_of_writes
      intro a ha
      obtain ⟨c, _, rfl⟩ := mem_sendCmds_fst ha
      rfl
    · intro a ha b _
      rcases List.mem_append.mp ha with ha | ha
      · exact orderRel_of_left a (connEvs_benign e t a ha).1
          (connEvs_benign e t a ha).2 b
      · simp at ha
        subst ha
        exact orderRel_of_left Event.shellStart rfl (by simp) b
  · intro a ha b hb
    rcases List.mem_append.mp ha with ha | ha
    · rcases List.mem_append.mp ha with ha | ha
      · exact orderRel_of_left a (connEvs_benign e t a ha).1
          (connEvs_benign e t a ha).2 b
      · simp at ha
        subst ha
        exact orderRel_of_left Event.shellStart rfl (by simp) b
    · obtain ⟨c, _, rfl⟩ := mem_sendCmds_fst ha
      exact ⟨fun _ => hTb b hb, fun h => by simp at h⟩

theorem run_preFail (cmds : List (List String)) (e : Env) (h : ¬ preOk e) :
    run cmds e = ⟨[], .fatal⟩ := by
  unfold run
  cases h1 : e.openCfg <;> cases h2 : e.readCfg <;> cases h3 : e.unmarshalCfg
    <;> cases h4 : e.readPub <;> cases h5 : e.newDriver <;>
    simp_all [preOk]

theorem run_createFail (cmds : List (List String)) (e : Env)
    (h : preOk e) (hc : e.create = none) :
    run cmds e = ⟨[.create], .fatal⟩ := by
  obtain ⟨h1, h2, h3, h4, h5⟩ := h
  unfold run
  rw [hc]
  simp [h1, h2, h3, h4, h5]

theorem run_keyFail (cmds : List (List String)) (e : Env) (n : Nd)
    (h : preOk e) (hc : e.create = some n)
    (hk : e.readPriv = false ∨ e.parseKey = false) :
    run cmds e = ⟨preEvs, .fatal⟩ := by
  obtain ⟨h1, h2, h3, h4, h5⟩ := h
  unfold run
  rw [hc]
  rcases hk with hk | hk
  · simp [h1, h2, h3, h4, h5, hk]
  · cases hp : e.readPriv <;> simp [h1, h2, h3, h4, h5, hk, hp]

theorem run_noAddr (cmds : List (List String)) (e : Env) (n : Nd)
    (h : preOk e) (hc : e.create = some n)
    (hp : e.readPriv = true) (hq : e.parseKey = true)
    (hv : n.networks.v4 = []) :
    run cmds e = ⟨preEvs, .crashed⟩ := by
  obtain ⟨h1, h2, h3, h4, h5⟩ := h
  unfold run
  rw [hc]
  simp [h1, h2, h3, h4, h5, hp, hq, hv]

theorem run_toDial (cmds : List (List String)) (e : Env) (n : Nd)
    (addr : String) (rest : List String)
    (h : preOk e) (hc : e.create = some n)
    (hp : e.readPriv = true) (hq : e.parseKey = true)
    (hv : n.networks.v4 = addr :: rest) :
    run cmds e = runFromDial cmds e (addr ++ ":22") := by
  obtain ⟨h1, h2, h3, h4, h5⟩ := h
  unfold run
  rw [hc]
  simp [h1, h2, h3, h4, h5, hp, hq, hv]

theorem runFromDial_dialFail (cmds : List (List String)) (e : Env) (t : String)
    (h : e.dialOk = false) :
    runFromDial cmds e t = ⟨preEvs ++ [.dial t], .fatal⟩ := by
  unfold runFromDial
  simp [h]

theorem runFromDial_sessFail (cmds : List (List String)) (e : Env) (t : String)
    (h1 : e.dialOk = true) (h : e.sessionOk = false) :
    runFromDial cmds e t = ⟨preEvs ++ [.dial t], .fatal⟩ := by
  unfold runFromDial
  simp [h1, h]

theorem runFromDial_pipeFail (cmds : List (List String)) (e : Env) (t : String)
    (h1 : e.dialOk = true) (h2 : e.sessionOk = true)
    (h : e.stdinPipe = false ∨ e.stderrPipe = false ∨ e.stdoutPipe = false) :
    runFromDial cmds e t = ⟨preEvs ++ [.dial t, .newSession], .fatal⟩ := by
  unfold runFromDial
  rcases h with h | h | h
  · simp [h1, h2, h]
  · cases ha : e.stdinPipe <;> simp [h1, h2, h, ha]
  · cases ha : e.stdinPipe <;> cases hb : e.stderrPipe <;>
      simp [h1, h2, h, ha, hb]

theorem runFromDial_shellFail (cmds : List (List String)) (e : Env) (t : String)
    (h1 : e.dialOk = true) (h2 : e.sessionOk = true)
    (h3 : e.stdinPipe = true) (h4 : e.stderrPipe = true)
    (h5 : e.stdoutPipe = true) (h : e.shellOk = false) :
    runFromDial cmds e t = ⟨connEvs e t, .fatal⟩ := by
  unfold runFromDial
  simp [h1, h2, h3, h4, h5, h]

theorem runFromDial_writeFail (cmds : List (List String)) (e : Env) (t : String)
    (h1 : e.dialOk = true) (h2 : e.sessionOk = true)
    (h3 : e.stdinPipe = true) (h4 : e.stderrPipe = true)
    (h5 : e.stdoutPipe = true) (h6 : e.shellOk = true)
    (hw : (sendCmds e.writeOk 0 cmds).2 = false) :
    runFromDial cmds e t
      = ⟨connEvs e t ++ [.shellStart] ++ (sendCmds e.writeOk 0 cmds).1,
          .fatal⟩ := by
  unfold runFromDial
  simp [h1, h2, h3, h4, h5, h6, hw]

theorem runFromDial_waitFail (cmds : List (List String)) (e : Env) (t : String)
    (h1 : e.dialOk = true) (h2 : e.sessionOk = true)
    (h3 : e.stdinPipe = true) (h4 : e.stderrPipe = true)
    (h5 : e.stdoutPipe = true) (h6 : e.shellOk = true)
    (hw : (sendCmds e.writeOk 0 cmds).2 = true) (h : e.waitOk = false) :
    runFromDial cmds e t
      = ⟨connEvs e t ++ [.shellStart] ++ (sendCmds e.writeOk 0 cmds).1
          ++ [.waitBegin], .fatal⟩ := by
  unfold runFromDial
  simp [h1, h2, h3, h4, h5, h6, hw, h]

theorem runFromDial_normal (cmds : List (List String)) (e : Env) (t : String)
    (h1 : e.dialOk = true) (h2 : e.sessionOk = true)
    (h3 : e.stdinPipe = true) (h4 : e.stderrPipe = true)
    (h5 : e.stdoutPipe = true) (h6 : e.shellOk = true)
    (hw : (sendCmds e.writeOk 0 cmds).2 = true) (h : e.waitOk = true) :
    runFromDial cmds e t
      = ⟨connEvs e t ++ [.shellStart] ++ (sendCmds e.writeOk 0 cmds).1
          ++ [.waitBegin, .closeSession], .normal⟩ := by
  unfold runFromDial
  simp [h1, h2, h3, h4, h5, h6, hw, h]

/-- Exhaustive case analysis on the outcome of a run: every run result has
one of these shapes. -/
theorem run_shape (cmds : List (List String)) (e : Env) :
    run cmds e = ⟨[], .fatal⟩
  ∨ run cmds e = ⟨[.create], .fatal⟩
  ∨ run cmds e = ⟨preEvs, .fatal⟩
  ∨ run cmds e = ⟨preEvs, .crashed⟩
  ∨ (∃ n addr rest, e.create = some n ∧ n.networks.v4 = addr :: rest ∧
      (run cmds e = ⟨preEvs ++ [.dial (addr ++ ":22")], .fatal⟩
      ∨ run cmds e = ⟨preEvs ++ [.dial (addr ++ ":22"), .newSession], .fatal⟩
      ∨ run cmds e = ⟨connEvs e (addr ++ ":22"), .fatal⟩
      ∨ ((sendCmds e.writeOk 0 cmds).2 = false ∧
          run cmds e = ⟨connEvs e (addr ++ ":22") ++ [.shellStart]
            ++ (sendCmds e.writeOk 0 cmds).1, .fatal⟩)
      ∨ ((sendCmds e.writeOk 0 cmds).2 = true ∧
          run cmds e = ⟨connEvs e (addr ++ ":22") ++ [.shellStart]
            ++ (sendCmds e.writeOk 0 cmds).1 ++ [.waitBegin], .fatal⟩)
      ∨ ((sendCmds e.writeOk 0 cmds).2 = true ∧
          run cmds e = ⟨connEvs e (addr ++ ":22") ++ [.shellStart]
            ++ (sendCmds e.writeOk 0 cmds).1
            ++ [.waitBegin, .closeSession], .normal⟩))) := by
  by_cases hp : preOk e
  · cases hc : e.create with
    | none => exact Or.inr (Or.inl (run_createFail cmds e hp hc))
    | some n =>
      cases hpriv : e.readPriv with
      | false =>
        exact Or.inr (Or.inr (Or.inl (run_keyFail cmds e n hp hc (Or.inl hpriv))))
      | true =>
        cases hparse : e.parseKey with
        | false =>
          exact Or.inr (Or.inr (Or.inl (run_keyFail cmds e n hp hc (Or.inr hparse))))
        | true =>
          cases hv : n.networks.v4 with
          | nil =>
            exact Or.inr (Or.inr (Or.inr (Or.inl
              (run_noAddr cmds e n hp hc hpriv hparse hv))))
          | cons addr rest =>
            have hd := run_toDial cmds e n addr rest hp hc hpriv hparse hv
            refine Or.inr (Or.inr (Or.inr (Or.inr
              ⟨n, addr, rest, rfl, hv, ?_⟩)))
            rw [hd]
            cases h1 : e.dialOk with
            | false => exact Or.inl (runFromDial_dialFail cmds e _ h1)
            | true =>
              cases h2 : e.sessionOk with
              | false => exact Or.inl (runFromDial_sessFail cmds e _ h1 h2)
              | true =>
                cases h3 : e.stdinPipe with
                | false =>
                  exact Or.inr (Or.inl
                    (runFromDial_pipeFail cmds e _ h1 h2 (Or.inl h3)))
                | true =>
                  cases h4 : e.stderrPipe with
                  | false =>
                    exact Or.inr (Or.inl
                      (runFromDial_pipeFail cmds e _ h1 h2 (Or.inr (Or.inl h4))))
                  | true =>
                    cases h5 : e.stdoutPipe with
                    | false =>
                      exact Or.inr (Or.inl (runFromDial_pipeFail cmds e _ h1 h2
                        (Or.inr (Or.inr h5))))
                    | true =>
                      cases h6 : e.shellOk with
                      | false =>
                        exact Or.inr (Or.inr (Or.inl
                          (runFromDial_shellFail cmds e _ h1 h2 h3 h4 h5 h6)))
                      | true =>
                        cases hw : (sendCmds e.writeOk 0 cmds).2 with
                        | false =>
                          exact Or.inr (Or.inr (Or.inr (Or.inl ⟨rfl,
                            runFromDial_writeFail cmds e _ h1 h2 h3 h4 h5 h6 hw⟩)))
                        | true =>
                          cases h7 : e.waitOk with
                          | false =>
                            exact Or.inr (Or.inr (Or.inr (Or.inr (Or.inl ⟨rfl,
                              runFromDial_waitFail cmds e _ h1 h2 h3 h4 h5 h6 hw h7⟩))))
                          | true =>
                            exact Or.inr (Or.inr (Or.inr (Or.inr (Or.inr ⟨rfl,
                              runFromDial_normal cmds e _ h1 h2 h3 h4 h5 h6 hw h7⟩))))
  · exact Or.inl (run_preFail cmds e hp)

end Lemmas

/-- C4: if `driver.Create` returns an error, the run exits with a non-zero
status before the readiness delay begins, and no connection attempt, session
creation, or command transmission ever occurs. -/
theorem create_error_aborts_run (cmds : List (List String)) (e : Env)
    (h : e.create = none) :
    (run cmds e).exit = .fatal
      ∧ Event.sleep ∉ (run cmds e).events
      ∧ (∀ t, Event.dial t ∉ (run cmds e).events)
      ∧ Event.newSession ∉ (run cmds e).events
      ∧ (∀ s, Event.write s ∉ (run cmds e).events) := by
  by_cases hp : preOk e
  · rw [run_createFail cmds e hp h]
    simp
  · rw [run_preFail cmds e hp]
    simp

/-- C4 witness: concrete run whose `Create` fails. -/
theorem create_error_aborts_run_witness :
    envCreateFail.create = none
      ∧ ((run cmds0 envCreateFail).exit = .fatal
        ∧ Event.sleep ∉ (run cmds0 envCreateFail).events
        ∧ (∀ t, Event.dial t ∉ (run cmds0 envCreateFail).events)
        ∧ Event.newSession ∉ (run cmds0 envCreateFail).events
        ∧ (∀ s, Event.write s ∉ (run cmds0 envCreateFail).events)) :=
  ⟨rfl, create_error_aborts_run cmds0 envCreateFail rfl⟩

/-- C5: whenever a connection attempt is made, the trace begins with the
create request, the creation acknowledgment, the full readiness sleep, and
only then the dial: the fixed delay elapses after the acknowledgment and
before any connection attempt. -/
theorem delay_precedes_dial (cmds : List (List String)) (e : Env) (t : String)
    (h : Event.dial t ∈ (run cmds e).events) :
    (run cmds e).events.take 4 = [.create, .createOk, .sleep, .dial t] := by
  rcases run_shape cmds e with h1 | h1 | h1 | h1 | ⟨n, addr, rest, hc, hv, hsh⟩
  · rw [h1] at h; simp at h
  · rw [h1] at h; simp at h
  · rw [h1] at h; simp [preEvs] at h
  · rw [h1] at h; simp [preEvs] at h
  · have ht : t = addr ++ ":22" := by
      rcases hsh with h1 | h1 | h1 | ⟨hw, h1⟩ | ⟨hw, h1⟩ | ⟨hw, h1⟩ <;>
        rw [h1] at h <;>
        simp [preEvs, connEvs, mem_relayEvs_iff, dial_not_mem_sendCmds] at h <;>
        exact h
    subst ht
    rcases hsh with h1 | h1 | h1 | ⟨hw, h1⟩ | ⟨hw, h1⟩ | ⟨hw, h1⟩ <;> rw [h1] <;> rfl

/-- C5 witness: concrete all-success run. -/
theorem delay_precedes_dial_witness :
    Event.dial "203.0.113.7:22" ∈ (run cmds0 allOkEnv).events
      ∧ (run cmds0 allOkEnv).events.take 4
          = [.create, .createOk, .sleep, .dial "203.0.113.7:22"] :=
  ⟨by decide, delay_precedes_dial cmds0 allOkEnv "203.0.113.7:22" (by decide)⟩

/-- C9: whenever a connection attempt is made, its target is exactly the
created node's first reported IPv4 address with port 22 appended. -/
theorem dial_target_first_ipv4 (cmds : List (List String)) (e : Env)
    (t : String) (h : Event.dial t ∈ (run cmds e).events) :
    ∃ n addr rest, e.create = some n ∧ n.networks.v4 = addr :: rest
      ∧ t = addr ++ ":22" := by
  rcases run_shape cmds e with h1 | h1 | h1 | h1 | ⟨n, addr, rest, hc, hv, hsh⟩
  · rw [h1] at h; simp at h
  · rw [h1] at h; simp at h
  · rw [h1] at h; simp [preEvs] at h
  · rw [h1] at h; simp [preEvs] at h
  · refine ⟨n, addr, rest, hc, hv, ?_⟩
    rcases hsh with h1 | h1 | h1 | ⟨hw, h1⟩ | ⟨hw, h1⟩ | ⟨hw, h1⟩ <;>
      rw [h1] at h <;>
      simp [preEvs, connEvs, mem_relayEvs_iff, dial_not_mem_sendCmds] at h <;>
      exact h

/-- C9 witness: concrete all-success run dialing the node's only address. -/
theorem dial_target_first_ipv4_witness :
    Event.dial "203.0.113.7:22" ∈ (run cmds0 allOkEnv).events
      ∧ ∃ n addr rest, allOkEnv.create = some n
          ∧ n.networks.v4 = addr :: rest
          ∧ "203.0.113.7:22" = addr ++ ":22" :=
  ⟨by decide, dial_target_first_ipv4 cmds0 allOkEnv "203.0.113.7:22" (by decide)⟩

/-- C10: if the created node reports an empty IPv4 address list and the run
reaches the dial-target construction of line 105, the program crashes with an
index-out-of-range panic and no connection attempt is ever made. -/
theorem empty_ipv4_crashes (cmds : List (List String)) (e : Env) (n : Nd)
    (hp : preOk e) (hc : e.create = some n)
    (h1 : e.readPriv = true) (h2 : e.parseKey = true)
    (hv : n.networks.v4 = []) :
    (run cmds e).exit = .crashed
      ∧ (∀ t, Event.dial t ∉ (run cmds e).events) := by
  rw [run_noAddr cmds e n hp hc h1 h2 hv]
  simp [preEvs]

/-- C10 witness: concrete run whose node reports no IPv4 address. -/
theorem empty_ipv4_crashes_witness :
    preOk envNoAddr ∧ envNoAddr.create = some ⟨⟨[]⟩⟩
      ∧ envNoAddr.readPriv = true ∧ envNoAddr.parseKey = true
      ∧ ((run cmds0 envNoAddr).exit = .crashed
        ∧ (∀ t, Event.dial t ∉ (run cmds0 envNoAddr).events)) :=
  ⟨by decide, rfl, rfl, rfl,
    empty_ipv4_crashes cmds0 envNoAddr ⟨⟨[]⟩⟩ (by decide) rfl rfl rfl rfl⟩

/-- C2: the claim that the session is closed exactly once on every failure
path is violated by the code: when `session.StdinPipe()` fails after the
session was created, `log.Fatalln` calls `os.Exit(1)`, which skips the
deferred `session.Close()` of line 114, so the session is never closed. -/
theorem session_close_skipped_on_failure :
    (run cmds0 envStdinFail).exit = .fatal
      ∧ Event.newSession ∈ (run cmds0 envStdinFail).events
      ∧ Event.closeSession ∉ (run cmds0 envStdinFail).events := by
  decide

/-- C3 counterexample: a run whose only failing step is reading the private
key file (a credential error) still performs the node-creation request (a
remote action) and the readiness sleep before the error is reported, so the
claim that every credential error is reported before any remote action is
false. -/
theorem create_before_cred_error_cx :
    (run cmds0 envPrivFail).exit = .fatal
      ∧ Event.create ∈ (run cmds0 envPrivFail).events
      ∧ (run cmds0 envPrivFail).events = [.create, .createOk, .sleep] := by
  decide

/-- C3 amended: public-key file errors are fatal and reported before any
remote action; private-key read/parse errors are fatal and reported before
any connection attempt, session creation, or command transmission, though
after the node-creation request. -/
theorem cred_errors_fatal_pre_connect (cmds : List (List String)) (e : Env) :
    (e.readPub = false →
      (run cmds e).exit = .fatal ∧ Event.create ∉ (run cmds e).events)
    ∧ (e.readPriv = false ∨ e.parseKey = false →
      (run cmds e).exit = .fatal
        ∧ (∀ t, Event.dial t ∉ (run cmds e).events)
        ∧ Event.newSession ∉ (run cmds e).events
        ∧ (∀ s, Event.write s ∉ (run cmds e).events)) := by
  constructor
  · intro h
    have hp : ¬ preOk e := by simp [preOk, h]
    rw [run_preFail cmds e hp]
    simp
  · intro h
    by_cases hp : preOk e
    · cases hc : e.create with
      | none =>
        rw [run_createFail cmds e hp hc]
        simp
      | some n =>
        rw [run_keyFail cmds e n hp hc h]
        simp [preEvs]
    · rw [run_preFail cmds e hp]
      simp

/-- C1: whenever the run completes transmission (reaches the termination
wait), the payloads written to the session input stream are exactly, in
order, each command's tokens joined by single spaces followed by a single
newline, and the bytes are their concatenation with nothing else. -/
theorem cmd_bytes_exact (cmds : List (List String)) (e : Env)
    (h : Event.waitBegin ∈ (run cmds e).events) :
    writesOf (run cmds e).events = cmds.map line
      ∧ writtenOf (run cmds e).events = transcript cmds := by
  have key : writesOf (run cmds e).events = cmds.map line := by
    rcases run_shape cmds e with h1 | h1 | h1 | h1 | ⟨n, addr, rest, hc, hv, hsh⟩
    · rw [h1] at h; simp at h
    · rw [h1] at h; simp at h
    · rw [h1] at h; simp [preEvs] at h
    · rw [h1] at h; simp [preEvs] at h
    · rcases hsh with h1 | h1 | h1 | ⟨hw, h1⟩ | ⟨hw, h1⟩ | ⟨hw, h1⟩
      · rw [h1] at h; simp [preEvs] at h
      · rw [h1] at h; simp [preEvs] at h
      · rw [h1] at h; simp [connEvs, preEvs, mem_relayEvs_iff] at h
      · rw [h1] at h
        simp [connEvs, preEvs, mem_relayEvs_iff, waitBegin_not_mem_sendCmds] at h
      · rw [h1]
        have hcnt := (sendCmds_snd e.writeOk 0 cmds).mp hw
        show writesOf _ = _
        rw [writesOf_append, writesOf_append, writesOf_append, writesOf_connEvs,
          sendCmds_fst e.writeOk 0 cmds, hcnt, List.take_length, writesOf_map_write]
        simp [writesOf]
      · rw [h1]
        have hcnt := (sendCmds_snd e.writeOk 0 cmds).mp hw
        show writesOf _ = _
        rw [writesOf_append, writesOf_append, writesOf_append, writesOf_connEvs,
          sendCmds_fst e.writeOk 0 cmds, hcnt, List.take_length, writesOf_map_write]
        simp [writesOf]
  exact ⟨key, by simp [writtenOf, transcript, key]⟩

/-- C1 witness: the spec scenario, on the all-success run with
`[["echo","hi"]]` the input stream receives exactly `echo hi\n`. -/
theorem cmd_bytes_exact_witness :
    Event.waitBegin ∈ (run cmds0 allOkEnv).events
      ∧ writtenOf (run cmds0 allOkEnv).events = transcript cmds0
      ∧ transcript cmds0 = "echo hi\n" :=
  ⟨by decide, (cmd_bytes_exact cmds0 allOkEnv (by decide)).2, by decide⟩

/-- C6: if the run reaches the shell but the write of command `i` fails
(after all earlier writes succeeded), then exactly the first `i` commands
are written, no later command is written, the termination wait is never
entered, and the run exits with a non-zero status. -/
theorem write_failure_stops_run (cmds : List (List String)) (e : Env) (i : Nat)
    (hi : i < cmds.length)
    (hfail : e.writeOk i = false)
    (hok : ∀ j, j < i → e.writeOk j = true)
    (hreach : Event.shellStart ∈ (run cmds e).events) :
    (run cmds e).exit = .fatal
      ∧ writesOf (run cmds e).events = (cmds.take i).map line
      ∧ Event.waitBegin ∉ (run cmds e).events := by
  have hcnt : okCount e.writeOk 0 cmds = i := by
    apply okCount_of_fail e.writeOk 0 i cmds
    · intro j hj
      simpa using hok j hj
    · simpa using hfail
    · exact le_of_lt hi
  have hsnd : (sendCmds e.writeOk 0 cmds).2 = false := by
    cases hs : (sendCmds e.writeOk 0 cmds).2
    · rfl
    · exfalso
      have hl := (sendCmds_snd e.writeOk 0 cmds).mp hs
      rw [hcnt] at hl
      omega
  rcases run_shape cmds e with h1 | h1 | h1 | h1 | ⟨n, addr, rest, hc, hv, hsh⟩
  · rw [h1] at hreach; simp at hreach
  · rw [h1] at hreach; simp at hreach
  · rw [h1] at hreach; simp [preEvs] at hreach
  · rw [h1] at hreach; simp [preEvs] at hreach
  · rcases hsh with h1 | h1 | h1 | ⟨hw, h1⟩ | ⟨hw, h1⟩ | ⟨hw, h1⟩
    · rw [h1] at hreach; simp [preEvs] at hreach
    · rw [h1] at hreach; simp [preEvs] at hreach
    · rw [h1] at hreach; simp [connEvs, preEvs, mem_relayEvs_iff] at hreach
    · rw [h1]
      refine ⟨rfl, ?_, ?_⟩
      · show writesOf _ = _
        rw [writesOf_append, writesOf_append, writesOf_connEvs,
          sendCmds_fst e.writeOk 0 cmds, hcnt, writesOf_map_write]
        simp [writesOf]
      · simp [connEvs, preEvs, mem_relayEvs_iff, waitBegin_not_mem_sendCmds]
    · simp [hw] at hsnd
    · simp [hw] at hsnd

/-- C6 witness: two commands, the second write fails: only the first is
written and the wait is never entered. -/
theorem write_failure_stops_run_witness :
    (1 < cmds1.length
      ∧ envWrite1Fail.writeOk 1 = false
      ∧ (∀ j, j < 1 → envWrite1Fail.writeOk j = true)
      ∧ Event.shellStart ∈ (run cmds1 envWrite1Fail).events)
    ∧ ((run cmds1 envWrite1Fail).exit = .fatal
      ∧ writesOf (run cmds1 envWrite1Fail).events = (cmds1.take 1).map line
      ∧ Event.waitBegin ∉ (run cmds1 envWrite1Fail).events) :=
  ⟨⟨by decide, by decide, by decide, by decide⟩,
    write_failure_stops_run cmds1 envWrite1Fail 1 (by decide) (by decide)
      (by decide) (by decide)⟩

/-- C3 amended witness: concrete run with a failing private-key read. -/
theorem cred_errors_fatal_pre_connect_witness :
    envPrivFail.readPriv = false
      ∧ ((run cmds0 envPrivFail).exit = .fatal
        ∧ (∀ t, Event.dial t ∉ (run cmds0 envPrivFail).events)
        ∧ Event.newSession ∉ (run cmds0 envPrivFail).events
        ∧ (∀ s, Event.write s ∉ (run cmds0 envPrivFail).events)) :=
  ⟨rfl, (cred_errors_fatal_pre_connect cmds0 envPrivFail).2 (Or.inl rfl)⟩

/-- C7: relay copy failures are logged, never abort the run, and never alter
the exit kind, the primary-thread trace, the bytes transmitted, or whether
the termination wait is reached: the run outcome is invariant under replacing
the relay copy outcomes, and a copy failure on a spawned relay is logged. -/
theorem relay_failure_nonfatal (cmds : List (List String)) (e : Env)
    (r1 r2 : Bool) :
    ((run cmds (setRelayFlags e r1 r2)).exit = (run cmds e).exit)
      ∧ (mainEvents (run cmds (setRelayFlags e r1 r2)).events
          = mainEvents (run cmds e).events)
      ∧ (writesOf (run cmds (setRelayFlags e r1 r2)).events
          = writesOf (run cmds e).events)
      ∧ (Event.waitBegin ∈ (run cmds (setRelayFlags e r1 r2)).events
          ↔ Event.waitBegin ∈ (run cmds e).events)
      ∧ (e.stderrCopyErr = true → Event.spawnStderrRelay ∈ (run cmds e).events →
          Event.relayErrLogged true ∈ (run cmds e).events)
      ∧ (e.stdoutCopyErr = true → Event.spawnStdoutRelay ∈ (run cmds e).events →
          Event.relayErrLogged false ∈ (run cmds e).events) := by
  by_cases hp : preOk e
  · cases hc : e.create with
    | none =>
      rw [run_createFail cmds (setRelayFlags e r1 r2) hp hc,
        run_createFail cmds e hp hc]
      simp
    | some n =>
      cases hpriv : e.readPriv with
      | false =>
        rw [run_keyFail cmds (setRelayFlags e r1 r2) n hp hc (Or.inl hpriv),
          run_keyFail cmds e n hp hc (Or.inl hpriv)]
        simp [preEvs]
      | true =>
        cases hparse : e.parseKey with
        | false =>
          rw [run_keyFail cmds (setRelayFlags e r1 r2) n hp hc (Or.inr hparse),
            run_keyFail cmds e n hp hc (Or.inr hparse)]
          simp [preEvs]
        | true =>
          cases hv : n.networks.v4 with
          | nil =>
            rw [run_noAddr cmds (setRelayFlags e r1 r2) n hp hc hpriv hparse hv,
              run_noAddr cmds e n hp hc hpriv hparse hv]
            simp [preEvs]
          | cons addr rest =>
            rw [run_toDial cmds (setRelayFlags e r1 r2) n addr rest hp hc hpriv hparse hv,
              run_toDial cmds e n addr rest hp hc hpriv hparse hv]
            cases h1 : e.dialOk with
            | false =>
              rw [runFromDial_dialFail cmds (setRelayFlags e r1 r2) (addr ++ ":22") h1,
                runFromDial_dialFail cmds e (addr ++ ":22") h1]
              simp [preEvs]
            | true =>
              cases h2 : e.sessionOk with
              | false =>
                rw [runFromDial_sessFail cmds (setRelayFlags e r1 r2) (addr ++ ":22") h1 h2,
                  runFromDial_sessFail cmds e (addr ++ ":22") h1 h2]
                simp [preEvs]
              | true =>
                cases h3 : e.stdinPipe with
                | false =>
                  rw [runFromDial_pipeFail cmds (setRelayFlags e r1 r2) (addr ++ ":22") h1 h2 (Or.inl h3),
                    runFromDial_pipeFail cmds e (addr ++ ":22") h1 h2 (Or.inl h3)]
                  simp [preEvs]
                | true =>
                  cases h4 : e.stderrPipe with
                  | false =>
                    rw [runFromDial_pipeFail cmds (setRelayFlags e r1 r2) (addr ++ ":22") h1 h2 (Or.inr (Or.inl h4)),
                      runFromDial_pipeFail cmds e (addr ++ ":22") h1 h2 (Or.inr (Or.inl h4))]
                    simp [preEvs]
                  | true =>
                    cases h5 : e.stdoutPipe with
                    | false =>
                      rw [runFromDial_pipeFail cmds (setRelayFlags e r1 r2) (addr ++ ":22") h1 h2 (Or.inr (Or.inr h5)),
                        runFromDial_pipeFail cmds e (addr ++ ":22") h1 h2 (Or.inr (Or.inr h5))]
                      simp [preEvs]
                    | true =>
                      cases h6 : e.shellOk with
                      | false =>
                        rw [runFromDial_shellFail cmds (setRelayFlags e r1 r2) (addr ++ ":22") h1 h2 h3 h4 h5 h6,
                          runFromDial_shellFail cmds e (addr ++ ":22") h1 h2 h3 h4 h5 h6]
                        refine ⟨rfl, ?_, ?_, ?_, ?_, ?_⟩
                        · rw [mainEvents_connEvs, mainEvents_connEvs]
                        · rw [writesOf_connEvs, writesOf_connEvs]
                        · simp [waitBegin_not_mem_connEvs]
                        · intro hf _
                          exact relayLog_mem_connEvs_stderr e _ hf
                        · intro hf _
                          exact relayLog_mem_connEvs_stdout e _ hf
                      | true =>
                        cases hw : (sendCmds e.writeOk 0 cmds).2 with
                        | false =>
                          rw [runFromDial_writeFail cmds (setRelayFlags e r1 r2) (addr ++ ":22") h1 h2 h3 h4 h5 h6 hw,
                            runFromDial_writeFail cmds e (addr ++ ":22") h1 h2 h3 h4 h5 h6 hw]
                          refine ⟨rfl, ?_, ?_, ?_, ?_, ?_⟩
                          · simp only [mainEvents_append, mainEvents_connEvs, mainEvents_sendCmds]
                            simp [setRelayFlags, mainEvents, isRelayLog]
                          · simp only [writesOf_append, writesOf_connEvs]
                            simp [setRelayFlags, writesOf]
                          · simp [waitBegin_not_mem_connEvs, waitBegin_not_mem_sendCmds]
                          · intro hf _
                            exact List.mem_append_left _ (List.mem_append_left _
                              (relayLog_mem_connEvs_stderr e _ hf))
                          · intro hf _
                            exact List.mem_append_left _ (List.mem_append_left _
                              (relayLog_mem_connEvs_stdout e _ hf))
                        | true =>
                          cases h7 : e.waitOk with
                          | false =>
                            rw [runFromDial_waitFail cmds (setRelayFlags e r1 r2) (addr ++ ":22") h1 h2 h3 h4 h5 h6 hw h7,
                              runFromDial_waitFail cmds e (addr ++ ":22") h1 h2 h3 h4 h5 h6 hw h7]
                            refine ⟨rfl, ?_, ?_, ?_, ?_, ?_⟩
                            · simp only [mainEvents_append, mainEvents_connEvs, mainEvents_sendCmds]
                              simp [setRelayFlags, mainEvents, isRelayLog]
                            · simp only [writesOf_append, writesOf_connEvs]
                              simp [setRelayFlags, writesOf]
                            · simp
                            · intro hf _
                              exact List.mem_append_left _ (List.mem_append_left _
                                (List.mem_append_left _ (relayLog_mem_connEvs_stderr e _ hf)))
                            · intro hf _
                              exact List.mem_append_left _ (List.mem_append_left _
                                (List.mem_append_left _ (relayLog_mem_connEvs_stdout e _ hf)))
                          | true =>
                            rw [runFromDial_normal cmds (setRelayFlags e r1 r2) (addr ++ ":22") h1 h2 h3 h4 h5 h6 hw h7,
                              runFromDial_normal cmds e (addr ++ ":22") h1 h2 h3 h4 h5 h6 hw h7]
                            refine ⟨rfl, ?_, ?_, ?_, ?_, ?_⟩
                            · simp only [mainEvents_append, mainEvents_connEvs, mainEvents_sendCmds]
                              simp [setRelayFlags, mainEvents, isRelayLog]
                            · simp only [writesOf_append, writesOf_connEvs]
                              simp [setRelayFlags, writesOf]
                            · simp
                            · intro hf _
                              exact List.mem_append_left _ (List.mem_append_left _
                                (List.mem_append_left _ (relayLog_mem_connEvs_stderr e _ hf)))
                            · intro hf _
                              exact List.mem_append_left _ (List.mem_append_left _
                                (List.mem_append_left _ (relayLog_mem_connEvs_stdout e _ hf)))
  · rw [run_preFail cmds (setRelayFlags e r1 r2) hp, run_preFail cmds e hp]
    simp

/-- C7 witness: a run whose relay copies both fail has the same exit as the
same run with healthy relays, and the failures are logged. -/
theorem relay_failure_nonfatal_witness :
    ((run cmds0 (setRelayFlags envRelayFail false false)).exit
        = (run cmds0 envRelayFail).exit)
      ∧ envRelayFail.stderrCopyErr = true
      ∧ Event.spawnStderrRelay ∈ (run cmds0 envRelayFail).events
      ∧ Event.relayErrLogged true ∈ (run cmds0 envRelayFail).events :=
  ⟨(relay_failure_nonfatal cmds0 envRelayFail false false).1, rfl, by decide,
    (relay_failure_nonfatal cmds0 envRelayFail false false).2.2.2.2.1 rfl (by decide)⟩

/-- C8: in every run the shell is requested before any command line is
written (a write event implies the shell was started, and no write precedes
the shell start), no write occurs after the termination wait begins, and when
the wait begins every command line has already been written. -/
theorem shell_writes_wait_order (cmds : List (List String)) (e : Env) :
    (∀ s, Event.write s ∈ (run cmds e).events →
      Event.shellStart ∈ (run cmds e).events)
      ∧ List.Pairwise orderRel (run cmds e).events
      ∧ (Event.waitBegin ∈ (run cmds e).events →
          writesOf (run cmds e).events = cmds.map line) := by
  rcases run_shape cmds e with h1 | h1 | h1 | h1 | ⟨n, addr, rest, hc, hv, hsh⟩
  · rw [h1]
    exact ⟨by simp, List.Pairwise.nil, by simp⟩
  · rw [h1]
    refine ⟨by simp, ?_, by simp⟩
    refine pairwise_orderRel_of_benign _ ?_
    intro a ha
    simp at ha
    subst ha
    simp [isWrite]
  · rw [h1]
    refine ⟨by simp [preEvs], ?_, by simp [preEvs]⟩
    refine pairwise_orderRel_of_benign _ ?_
    intro a ha
    simp [preEvs] at ha
    rcases ha with rfl | rfl | rfl <;> simp [isWrite]
  · rw [h1]
    refine ⟨by simp [preEvs], ?_, by simp [preEvs]⟩
    refine pairwise_orderRel_of_benign _ ?_
    intro a ha
    simp [preEvs] at ha
    rcases ha with rfl | rfl | rfl <;> simp [isWrite]
  · rcases hsh with h1 | h1 | h1 | ⟨hw, h1⟩ | ⟨hw, h1⟩ | ⟨hw, h1⟩
    · rw [h1]
      refine ⟨by simp [preEvs], ?_, by simp [preEvs]⟩
      refine pairwise_orderRel_of_benign _ ?_
      intro a ha
      simp [preEvs] at ha
      rcases ha with rfl | rfl | rfl | rfl <;> simp [isWrite]
    · rw [h1]
      refine ⟨by simp [preEvs], ?_, by simp [preEvs]⟩
      refine pairwise_orderRel_of_benign _ ?_
      intro a ha
      simp [preEvs] at ha
      rcases ha with rfl | rfl | rfl | rfl | rfl <;> simp [isWrite]
    · rw [h1]
      refine ⟨by simp [connEvs, preEvs, mem_relayEvs_iff], ?_,
        by simp [waitBegin_not_mem_connEvs]⟩
      exact pairwise_orderRel_of_benign _ (connEvs_benign e _)
    · rw [h1]
      refine ⟨?_, ?_, ?_⟩
      · intro s _
        simp
      · have := pairwise_orderRel_events e (addr ++ ":22") e.writeOk cmds []
          List.Pairwise.nil (by simp)
        simpa using this
      · intro hmem
        exfalso
        simp [waitBegin_not_mem_connEvs, waitBegin_not_mem_sendCmds] at hmem
    · rw [h1]
      refine ⟨?_, ?_, ?_⟩
      · intro s _
        simp
      · exact pairwise_orderRel_events e (addr ++ ":22") e.writeOk cmds
          [Event.waitBegin] (List.pairwise_singleton _ _) (by simp)
      · intro _
        have hcnt := (sendCmds_snd e.writeOk 0 cmds).mp hw
        show writesOf _ = _
        rw [writesOf_append, writesOf_append, writesOf_append, writesOf_connEvs,
          sendCmds_fst e.writeOk 0 cmds, hcnt, List.take_length, writesOf_map_write]
        simp [writesOf]
    · rw [h1]
      refine ⟨?_, ?_, ?_⟩
      · intro s _
        simp
      · refine pairwise_orderRel_events e (addr ++ ":22") e.writeOk cmds
          [Event.waitBegin, Event.closeSession] ?_ (by simp)
        refine List.Pairwise.cons ?_ (List.pairwise_singleton _ _)
        intro b hb
        simp at hb
        subst hb
        exact ⟨fun h => by simp [isWrite] at h, fun _ => rfl⟩
      · intro _
        have hcnt := (sendCmds_snd e.writeOk 0 cmds).mp hw
        show writesOf _ = _
        rw [writesOf_append, writesOf_append, writesOf_append, writesOf_connEvs,
          sendCmds_fst e.writeOk 0 cmds, hcnt, List.take_length, writesOf_map_write]
        simp [writesOf]

/-- C8 witness: the all-success run on `[["echo","hi"]]` reaches the wait
with the full command list written. -/
theorem shell_writes_wait_order_witness :
    Event.waitBegin ∈ (run cmds0 allOkEnv).events
      ∧ writesOf (run cmds0 allOkEnv).events = cmds0.map line :=
  ⟨by decide, (shell_writes_wait_order cmds0 allOkEnv).2.2 (by decide)⟩

end StkMemes
